import Mathlib

/-!
Shallow embedding of the gameplay core of the arena-shooter repository:
the enemy combat entity and wave scheduler (`src/systems/EnemyManager.js`,
`Enemy` in `src/core/AssetManager.js`) and the projectile system
(`ProjectileSystem`).  Scalars are modelled as rationals; 3-D vectors as
triples of rationals.  The one operation that is not rational-valued,
Euclidean normalization of a direction vector (`THREE.Vector3.normalize`),
is abstracted as an explicit function parameter `nrm`; no claim below
depends on its value.  Purely visual state (meshes, materials, animation
mixers, orientation quaternions) is excluded, as the specification itself
scopes it out.
-/

/-- A 3-D vector over ℚ, standing for `THREE.Vector3`. -/
structure Vec3 where
  x : ℚ
  y : ℚ
  z : ℚ
deriving DecidableEq, Repr

/-- Model of `Vector3.sub`: componentwise difference. -/
def Vec3.sub (a b : Vec3) : Vec3 :=
  ⟨a.x - b.x, a.y - b.y, a.z - b.z⟩

/-- Model of `Vector3.addScaledVector(d, k)`: `v + d * k`. -/
def Vec3.addScaled (v d : Vec3) (k : ℚ) : Vec3 :=
  ⟨v.x + d.x * k, v.y + d.y * k, v.z + d.z * k⟩

/-- Model of `Vector3.lengthSq`. -/
def Vec3.lengthSq (v : Vec3) : ℚ :=
  v.x * v.x + v.y * v.y + v.z * v.z

/-- Model of `Vector3.distanceToSquared`. -/
def Vec3.distanceToSquared (a b : Vec3) : ℚ :=
  Vec3.lengthSq (Vec3.sub a b)

/-- The zero vector. -/
def vZero : Vec3 := ⟨0, 0, 0⟩

/-- The three enemy kinds of `enemyDefinitions` in `EnemyManager.js`. -/
inductive EnemyType
  | grunt
  | runner
  | brute
deriving DecidableEq, Repr

/-- Gameplay slice of an enemy's `config` object (the `modelPath` and
visual-only fields are excluded). -/
structure EnemyConfig where
  id : EnemyType
  maxHealth : ℚ
  speed : ℚ
  damage : ℚ
  reward : ℚ
  attackRange : ℚ
  attackCooldown : ℚ
  scale : ℚ
deriving DecidableEq, Repr

/-- Gameplay state of the `Enemy` class (`src/core/AssetManager.js`):
`group.position` is `position`; mesh/mixer/quaternion state is excluded. -/
structure Enemy where
  config : EnemyConfig
  position : Vec3
  health : ℚ
  isAlive : Bool
  timeSinceLastAttack : ℚ
  boundingRadius : ℚ
deriving DecidableEq, Repr

/-- Model of `Enemy.takeDamage(amount)`: returns the updated enemy and whether the
call was fatal.  Mirrors the source: no-op returning `false` when already
dead; otherwise subtract, and on reaching `health <= 0` clamp to `0`,
clear `isAlive` and return `true`. -/
def Enemy.takeDamage (e : Enemy) (amount : ℚ) : Enemy × Bool :=
  if e.isAlive = false then
    (e, false)
  else
    let health := e.health - amount
    if health ≤ 0 then
      ({ e with health := 0, isAlive := false }, true)
    else
      ({ e with health := health }, false)

/-- Model of `Enemy.update(delta, { playerPosition, onAttack })`, gameplay slice.
Returns the updated enemy and whether the attack callback fired this
tick.  The source compares the Euclidean distance to `attackRange`; we
compare squares, which is equivalent for the non-negative ranges the
game uses.  The source's `direction.normalize()` (guarded by
`distance > 0.0001`) is abstracted by the `nrm` parameter; the
orientation slerp and animation-mixer updates are visual and excluded. -/
def Enemy.update (nrm : Vec3 → Vec3) (e : Enemy) (delta : ℚ)
    (playerPosition : Option Vec3) : Enemy × Bool :=
  if e.isAlive = false then
    (e, false)
  else
    match playerPosition with
    | none => (e, false)
    | some pp =>
      let e := { e with timeSinceLastAttack := e.timeSinceLastAttack + delta }
      let offset := Vec3.sub pp e.position
      if Vec3.lengthSq offset > e.config.attackRange * e.config.attackRange then
        let moveDistance := e.config.speed * delta
        ({ e with position := e.position.addScaled (nrm offset) moveDistance }, false)
      else
        if e.timeSinceLastAttack ≥ e.config.attackCooldown then
          ({ e with timeSinceLastAttack := 0 }, true)
        else
          (e, false)

/-! ## Enemy wave scheduler (`src/systems/EnemyManager.js`) -/

/-- Constant `DEFAULT_SPAWN_INTERVAL = 3.2`. -/
def DEFAULT_SPAWN_INTERVAL : ℚ := 32/10

/-- Constant `DEFAULT_MAX_ACTIVE = 8`. -/
def DEFAULT_MAX_ACTIVE : Nat := 8

/-- Constant `DEATH_CLEANUP_DELAY = 1.8`. -/
def DEATH_CLEANUP_DELAY : ℚ := 18/10

/-- The `enemyDefinitions` table of the `EnemyManager` constructor
(gameplay stats; `modelPath` excluded). -/
def enemyDefinitions : EnemyType → EnemyConfig
  | EnemyType.grunt =>
    { id := EnemyType.grunt, maxHealth := 60, speed := 11/2, damage := 10,
      reward := 60, attackRange := 19/10, attackCooldown := 14/10, scale := 21/20 }
  | EnemyType.runner =>
    { id := EnemyType.runner, maxHealth := 40, speed := 17/2, damage := 8,
      reward := 80, attackRange := 16/10, attackCooldown := 1, scale := 19/20 }
  | EnemyType.brute =>
    { id := EnemyType.brute, maxHealth := 140, speed := 18/5, damage := 18,
      reward := 150, attackRange := 13/5, attackCooldown := 11/5, scale := 27/20 }

/-- An element of `enemyEntries`: the enemy plus its `deathTimer`. -/
structure EnemyEntry where
  enemy : Enemy
  deathTimer : ℚ
deriving DecidableEq, Repr

/-- The `EnemyManager` fields that carry gameplay state (`scene`,
`assetManager`, `spawnRadius` and the scratch vector are render/randomness
plumbing and excluded; randomized spawn positions and the wave shuffle
enter through the per-tick input instead). -/
structure EnemyManager where
  enemyEntries : List EnemyEntry
  elapsed : ℚ
  spawnTimer : ℚ
  wave : Nat
  spawnInterval : ℚ
  maxActive : Nat
  spawnQueue : List EnemyType
  waveInProgress : Bool
deriving Repr

/-- The manager state built by the `EnemyManager` constructor. -/
def initialEnemyManager : EnemyManager :=
  { enemyEntries := [], elapsed := 0, spawnTimer := 0, wave := 1,
    spawnInterval := DEFAULT_SPAWN_INTERVAL, maxActive := DEFAULT_MAX_ACTIVE,
    spawnQueue := [], waveInProgress := false }

/-- Per-tick inputs to `EnemyManager.update`: the frame delta and player
position passed by the orchestrator, plus the two random draws of the
tick, abstracted as oracles: `shuffle` stands for
`composition.sort(() => Math.random() - 0.5)` (an arbitrary reordering)
and `spawnPos` for the randomized ring position produced by
`_getSpawnPositionRelativeTo`. -/
structure TickInput where
  delta : ℚ
  playerPosition : Option Vec3
  shuffle : List EnemyType → List EnemyType
  spawnPos : Vec3

/-- Model of `_countActiveEnemies`: `reduce` over the entries counting alive ones. -/
def countActiveEnemies (s : EnemyManager) : Nat :=
  s.enemyEntries.foldl (fun count entry => count + (if entry.enemy.isAlive then 1 else 0)) 0

/-- The deterministic composition list of `_enqueueWaveComposition`,
that is, its deterministic composition list, before the
random shuffle: `5 + wave * 2` grunts, then `floor(wave / 2)` runners when
`wave >= 3`, then `1 + floor(wave / 6)` brutes when `wave % 4 == 0`. -/
def waveComposition (wave : Nat) : List EnemyType :=
  let base := List.replicate (5 + wave * 2) EnemyType.grunt
  let withRunners :=
    if 3 ≤ wave then base ++ List.replicate (wave / 2) EnemyType.runner else base
  if wave % 4 = 0 then
    withRunners ++ List.replicate (1 + wave / 6) EnemyType.brute
  else
    withRunners

/-- Model of `_maybeScheduleNewWave`: when no wave is in progress and both the
entry list and the spawn queue are empty, mark the wave in progress,
push the shuffled composition onto the queue and prime the spawn timer. -/
def maybeScheduleNewWave (inp : TickInput) (s : EnemyManager) : EnemyManager :=
  if s.waveInProgress then
    s
  else if s.enemyEntries.length = 0 ∧ s.spawnQueue.length = 0 then
    { s with waveInProgress := true,
             spawnQueue := s.spawnQueue ++ inp.shuffle (waveComposition s.wave),
             spawnTimer := s.spawnInterval }
  else
    s

/-- Model of `spawnEnemy(type, spawnPosition)`, gameplay slice: a fresh entry with
full health and a zero death timer.  The source resolves the entry
asynchronously after the model loads and may then refit `boundingRadius`
to the model's bounding box; we use the constructor value
`1.2 * config.scale` and append synchronously, which is the only part of
the spawn visible to the scheduler. -/
def spawnEnemy (type : EnemyType) (spawnPosition : Vec3) : EnemyEntry :=
  let definition := enemyDefinitions type
  { enemy :=
      { config := definition, position := spawnPosition,
        health := definition.maxHealth, isAlive := true,
        timeSinceLastAttack := 0, boundingRadius := 6/5 * definition.scale },
    deathTimer := 0 }

/-- Model of `_handleSpawning`: gated dequeue of the next spawn, with the
difficulty escalation once the queue empties. -/
def handleSpawning (inp : TickInput) (s : EnemyManager) : EnemyManager :=
  if s.waveInProgress = false ∨ s.spawnQueue.length = 0 then
    s
  else if s.spawnTimer < s.spawnInterval then
    s
  else if countActiveEnemies s ≥ s.maxActive then
    s
  else
    match s.spawnQueue with
    | [] => s
    | nextType :: restQueue =>
      let s' := { s with spawnTimer := 0, spawnQueue := restQueue,
                         enemyEntries := s.enemyEntries ++ [spawnEnemy nextType inp.spawnPos] }
      if s'.spawnQueue.length = 0 then
        { s' with wave := s'.wave + 1, waveInProgress := false,
                  spawnInterval := max (9/10) (s'.spawnInterval * (92/100)),
                  maxActive := min 24 (s'.maxActive + 1) }
      else
        s'

/-! ## Combat resolution: `EnemyManager.handleProjectileImpact` -/

/-- The impact result object (`{ enemy, wasFatal, reward, damage }`); the
hit enemy is identified by its index in `enemyEntries`. -/
structure Impact where
  enemyIdx : Nat
  wasFatal : Bool
  reward : ℚ
  damage : ℚ
deriving DecidableEq, Repr

/-- Body of the `forEach` in `handleProjectileImpact`: fold one indexed
entry into the running `(hitEnemy, minDistance)` accumulator (`none`
models `hitEnemy = null / minDistance = Infinity`). -/
def considerEnemy (pos : Vec3) (best : Option (Nat × ℚ)) (ie : Nat × EnemyEntry) :
    Option (Nat × ℚ) :=
  let enemy := ie.2.enemy
  if enemy.isAlive = false then
    best
  else
    let distance := Vec3.distanceToSquared enemy.position pos
    if distance ≤ enemy.boundingRadius * enemy.boundingRadius then
      match best with
      | none => some (ie.1, distance)
      | some (j, minDistance) =>
        if distance < minDistance then some (ie.1, distance) else some (j, minDistance)
    else
      best

/-- The `forEach` loop itself, over the index-decorated entry list. -/
def findHitLoop (pos : Vec3) : List (Nat × EnemyEntry) → Option (Nat × ℚ) → Option (Nat × ℚ)
  | [], best => best
  | ie :: rest, best => findHitLoop pos rest (considerEnemy pos best ie)

/-- The scan of `handleProjectileImpact`: index and distance of the
nearest alive enemy whose hit-sphere contains `pos`, if any. -/
def findHitEnemy (entries : List EnemyEntry) (pos : Vec3) : Option (Nat × ℚ) :=
  findHitLoop pos entries.enum none

/-- Model of `EnemyManager.handleProjectileImpact(projectile, damage)`: run the
scan; on a hit apply `takeDamage` to that enemy and build the impact
result (`reward` only on a fatal hit).  The projectile argument is only
read for its position, which is passed directly. -/
def handleProjectileImpact (entries : List EnemyEntry) (position : Vec3) (damage : ℚ) :
    List EnemyEntry × Option Impact :=
  match findHitEnemy entries position with
  | none => (entries, none)
  | some (i, _) =>
    match entries.get? i with
    | none => (entries, none)
    | some entry =>
      let result := entry.enemy.takeDamage damage
      (entries.set i { entry with enemy := result.1 },
       some { enemyIdx := i, wasFatal := result.2,
              reward := if result.2 then result.1.config.reward else 0,
              damage := damage })

/-- Whether an entry's enemy is alive and its hit-sphere contains `pos`
(the source's `isAlive` guard plus `distance <= boundingRadius²`). -/
def entryHit (pos : Vec3) (entry : EnemyEntry) : Bool :=
  entry.enemy.isAlive &&
    decide (Vec3.distanceToSquared entry.enemy.position pos ≤
      entry.enemy.boundingRadius * entry.enemy.boundingRadius)

/-- Squared distance from an entry's enemy to `pos`. -/
def entryDist (pos : Vec3) (entry : EnemyEntry) : ℚ :=
  Vec3.distanceToSquared entry.enemy.position pos

/-- Left-biased minimum on the `(index, distance)` accumulator: the
right value wins only on strictly smaller distance. -/
def mergeBest : Option (Nat × ℚ) → Option (Nat × ℚ) → Option (Nat × ℚ)
  | best, none => best
  | none, some cand => some cand
  | some (j, m), some (i, d) => if d < m then some (i, d) else some (j, m)

/-- A concrete grunt-stat enemy entry at the origin, used by witnesses. -/
def demoEntry : EnemyEntry :=
  { enemy :=
      { config := enemyDefinitions EnemyType.grunt, position := vZero, health := 60,
        isAlive := true, timeSinceLastAttack := 0, boundingRadius := 63/50 },
    deathTimer := 0 }

/-! ## Projectile system (`ProjectileSystem`) -/

/-- Constant `DEFAULT_PROJECTILE_LIFETIME = 2.5`. -/
def DEFAULT_PROJECTILE_LIFETIME : ℚ := 5/2

/-- A pooled projectile (mesh and material state excluded). -/
structure Projectile where
  position : Vec3
  direction : Vec3
  speed : ℚ
  damage : ℚ
  maxDistance : ℚ
  distanceTravelled : ℚ
  timeToLive : ℚ
  active : Bool
deriving DecidableEq, Repr

/-- The object literal built by `_getProjectile` on pool exhaustion. -/
def freshProjectile : Projectile :=
  { position := vZero, direction := ⟨0, 0, 1⟩, speed := 40, damage := 10,
    maxDistance := 50, distanceTravelled := 0,
    timeToLive := DEFAULT_PROJECTILE_LIFETIME, active := false }

/-- The two lists owned by the system: active projectiles and the pool. -/
structure ProjectileSystem where
  projectiles : List Projectile
  pool : List Projectile
deriving DecidableEq, Repr

/-- State built by the `ProjectileSystem` constructor. -/
def initialProjectileSystem : ProjectileSystem :=
  { projectiles := [], pool := [] }

/-- Model of `_getProjectile`: `pool.pop()` takes the last pooled element, else a
fresh one is constructed. -/
def getProjectile (pool : List Projectile) : Projectile × List Projectile :=
  match pool.getLast? with
  | some p => (p, pool.dropLast)
  | none => (freshProjectile, pool)

/-- Arguments of `spawnProjectile` (the `color` tag is visual and
excluded; the source defaults `maxDistance` to `60` when absent, which we
model by passing `60` explicitly). -/
structure SpawnParams where
  position : Vec3
  direction : Vec3
  speed : ℚ
  damage : ℚ
  maxDistance : ℚ
deriving Repr

/-- Model of `spawnProjectile`: recycle or construct a projectile, initialize all
motion fields (`direction` is normalized via `nrm`, standing for
`copy(direction).normalize()`), activate it and append it to the active
list. -/
def spawnProjectile (nrm : Vec3 → Vec3) (s : ProjectileSystem) (params : SpawnParams) :
    ProjectileSystem :=
  let got := getProjectile s.pool
  let projectile :=
    { got.1 with
      position := params.position,
      direction := nrm params.direction,
      speed := params.speed,
      damage := params.damage,
      maxDistance := params.maxDistance,
      distanceTravelled := 0,
      timeToLive := DEFAULT_PROJECTILE_LIFETIME,
      active := true }
  { projectiles := s.projectiles ++ [projectile], pool := got.2 }

/-- The effect of `_deactivateProjectileAtIndex` on the projectile itself:
clear `active`, reset `distanceTravelled` and `timeToLive` (the mesh
removal is visual). -/
def deactivate (p : Projectile) : Projectile :=
  { p with active := false, distanceTravelled := 0, timeToLive := 0 }

/-- The motion part of one `update` iteration: advance the position along
the direction by `speed * delta`, accumulate `distanceTravelled` and
decrement `timeToLive`. -/
def advanceProjectile (delta : ℚ) (p : Projectile) : Projectile :=
  let travelDistance := p.speed * delta
  { p with
    position := p.position.addScaled p.direction travelDistance,
    distanceTravelled := p.distanceTravelled + travelDistance,
    timeToLive := p.timeToLive - delta }

/-- Result of processing one projectile in `update`: the projectile as it
stays in the active list (if it survived), the projectile as pushed onto
the pool (if it was deactivated), the enemy entries after a possible
impact, and the `onEnemyHit` event if one fired. -/
structure StepResult where
  kept : Option Projectile
  pooled : Option Projectile
  entries : List EnemyEntry
  impact : Option Impact
deriving DecidableEq, Repr

/-- One iteration of the `update` loop body for one projectile: stale
(inactive) projectiles are recycled immediately; otherwise the projectile
advances, then expires on range or lifetime, and only if it did not
expire is the impact query run, a hit deactivating it after the
`onEnemyHit` callback. -/
def stepProjectile (delta : ℚ) (p : Projectile) (entries : List EnemyEntry) : StepResult :=
  if p.active = false then
    { kept := none, pooled := some (deactivate p), entries := entries, impact := none }
  else
    let p' := advanceProjectile delta p
    if p'.distanceTravelled ≥ p'.maxDistance ∨ p'.timeToLive ≤ 0 then
      { kept := none, pooled := some (deactivate p'), entries := entries, impact := none }
    else
      match handleProjectileImpact entries p'.position p'.damage with
      | (entries', some impact) =>
        { kept := none, pooled := some (deactivate p'), entries := entries',
          impact := some impact }
      | (entries', none) =>
        { kept := some p', pooled := none, entries := entries', impact := none }

/-- The `update` loop over the active list.  The source iterates indices
from high to low (splicing as it goes), so the tail of the list is
processed before the head; survivors keep their relative order and the
pool receives deactivated projectiles in processing order. -/
def updateProjectiles (delta : ℚ) :
    List Projectile → List EnemyEntry →
      List Projectile × List Projectile × List EnemyEntry × List Impact
  | [], entries => ([], [], entries, [])
  | p :: rest, entries =>
    let tail := updateProjectiles delta rest entries
    let r := stepProjectile delta p tail.2.2.1
    (match r.kept with
      | some p' => p' :: tail.1
      | none => tail.1,
     tail.2.1 ++ r.pooled.toList,
     r.entries,
     tail.2.2.2 ++ r.impact.toList)

/-- Model of `ProjectileSystem.update(delta, enemyManager, callbacks)`: run the
loop, thread the enemy entries through the impact queries, and return the
fired `onEnemyHit` events. -/
def ProjectileSystem.update (delta : ℚ) (s : ProjectileSystem) (entries : List EnemyEntry) :
    ProjectileSystem × List EnemyEntry × List Impact :=
  let r := updateProjectiles delta s.projectiles entries
  ({ projectiles := r.1, pool := s.pool ++ r.2.1 }, r.2.2.1, r.2.2.2)

/-- Model of `ProjectileSystem.reset()`: deactivate every active projectile from
the back of the list, returning all of them to the pool. -/
def ProjectileSystem.reset (s : ProjectileSystem) : ProjectileSystem :=
  { projectiles := [], pool := s.pool ++ (s.projectiles.reverse.map deactivate) }

/-- The expiry test of the `update` loop, on the already-advanced
projectile: range exhausted or lifetime over. -/
def expiresOnTick (delta : ℚ) (p : Projectile) : Prop :=
  (advanceProjectile delta p).distanceTravelled ≥ (advanceProjectile delta p).maxDistance ∨
    (advanceProjectile delta p).timeToLive ≤ 0

instance (delta : ℚ) (p : Projectile) : Decidable (expiresOnTick delta p) := by
  unfold expiresOnTick
  infer_instance

/-- The C4 invariant: active projectiles are active with non-negative
speed and travel within `[0, maxDistance]`; pooled projectiles have their
travel reset to `0`. -/
def ProjInv (s : ProjectileSystem) : Prop :=
  (∀ p ∈ s.projectiles, p.active = true ∧ 0 ≤ p.speed ∧ 0 ≤ p.distanceTravelled ∧
    p.distanceTravelled ≤ p.maxDistance) ∧
  (∀ q ∈ s.pool, q.distanceTravelled = 0)

/-- A call against the projectile system from outside: a weapon fire or a
frame tick (the tick carries the enemy roster the orchestrator passes). -/
inductive PAction where
  | spawn (params : SpawnParams)
  | tick (delta : ℚ) (entries : List EnemyEntry)

/-- Run a sequence of spawn/tick calls against the system. -/
def runPActions (nrm : Vec3 → Vec3) : List PAction → ProjectileSystem → ProjectileSystem
  | [], s => s
  | PAction.spawn params :: rest, s => runPActions nrm rest (spawnProjectile nrm s params)
  | PAction.tick delta entries :: rest, s =>
    runPActions nrm rest (ProjectileSystem.update delta s entries).1

/-- The side conditions C4 places on a call sequence: non-negative deltas
and non-negative speeds (and nothing else). -/
def actionOkC4 : PAction → Prop
  | PAction.spawn params => 0 ≤ params.speed
  | PAction.tick delta _ => 0 ≤ delta

/-- C4 exactly as claimed: after any sequence of spawn and update calls
with non-negative deltas and non-negative speeds, active projectiles
satisfy `0 ≤ distanceTravelled ≤ maxDistance` and pooled ones have
`distanceTravelled = 0`. -/
def c4Claim : Prop :=
  ∀ (nrm : Vec3 → Vec3) (acts : List PAction), (∀ a ∈ acts, actionOkC4 a) →
    (∀ p ∈ (runPActions nrm acts initialProjectileSystem).projectiles,
      0 ≤ p.distanceTravelled ∧ p.distanceTravelled ≤ p.maxDistance) ∧
    (∀ q ∈ (runPActions nrm acts initialProjectileSystem).pool, q.distanceTravelled = 0)

/-- The supportable side conditions: C4's, plus non-negative
`maxDistance` on every spawn. -/
def actionOk : PAction → Prop
  | PAction.spawn params => 0 ≤ params.speed ∧ 0 ≤ params.maxDistance
  | PAction.tick delta _ => 0 ≤ delta

/-- The concrete call sequence used by the invariant witness: one
legitimate spawn followed by a tick with no enemies. -/
def demoActs : List PAction :=
  [PAction.spawn
    { position := vZero, direction := ⟨0, 0, 1⟩, speed := 10, damage := 10,
      maxDistance := 10 },
   PAction.tick (1/2) []]

/-- A sequence of frame ticks with no enemies present (the orchestrator
calls `update` once per frame; here `enemyManager` holds no entries). -/
def runTicksNoEnemies : List ℚ → ProjectileSystem → ProjectileSystem
  | [], s => s
  | d :: rest, s => runTicksNoEnemies rest (ProjectileSystem.update d s []).1

/-! ## `EnemyManager.update`, `reset` and the per-frame loop -/

/-- One iteration of the entry loop in `EnemyManager.update`: alive
enemies run their behavior; dead ones accumulate `deathTimer` and are
removed (`dispose` is visual) once it reaches `DEATH_CLEANUP_DELAY`.
The source's guard for a null `enemy` slot never fires in this model
because entries always carry an enemy. -/
def updateEnemyEntry (nrm : Vec3 → Vec3) (delta : ℚ) (playerPosition : Option Vec3)
    (entry : EnemyEntry) : Option EnemyEntry :=
  if entry.enemy.isAlive then
    some { entry with enemy := (entry.enemy.update nrm delta playerPosition).1 }
  else
    let deathTimer := entry.deathTimer + delta
    if deathTimer ≥ DEATH_CLEANUP_DELAY then none
    else some { entry with deathTimer := deathTimer }

/-- The entry loop.  The source iterates indices from high to low and
splices removals in place; since each entry is processed independently
this keeps survivors in order, which the forward recursion mirrors. -/
def updateEntries (nrm : Vec3 → Vec3) (delta : ℚ) (playerPosition : Option Vec3) :
    List EnemyEntry → List EnemyEntry
  | [] => []
  | entry :: rest =>
    match updateEnemyEntry nrm delta playerPosition entry with
    | some e => e :: updateEntries nrm delta playerPosition rest
    | none => updateEntries nrm delta playerPosition rest

/-- Model of `EnemyManager.update(delta, { playerPosition, onPlayerDamaged })`:
advance the clocks, maybe compose a new wave, maybe spawn, then run the
entry loop.  The `onPlayerDamaged` callback acts on the orchestrator's
state and is outside this model. -/
def EnemyManager.update (nrm : Vec3 → Vec3) (inp : TickInput) (s : EnemyManager) :
    EnemyManager :=
  let s1 := { s with elapsed := s.elapsed + inp.delta,
                     spawnTimer := s.spawnTimer + inp.delta }
  let s2 := maybeScheduleNewWave inp s1
  let s3 := handleSpawning inp s2
  { s3 with enemyEntries := updateEntries nrm inp.delta inp.playerPosition s3.enemyEntries }

/-- A sequence of manager frames. -/
def runManager (nrm : Vec3 → Vec3) : List TickInput → EnemyManager → EnemyManager
  | [], s => s
  | inp :: rest, s => runManager nrm rest (EnemyManager.update nrm inp s)

/-- Model of `EnemyManager.reset()`: dispose every entry (visual), clear the
roster and the queue, restart at wave 1 with a zeroed spawn timer and no
wave in progress.  `spawnInterval`, `maxActive` and `elapsed` are not
touched. -/
def EnemyManager.reset (s : EnemyManager) : EnemyManager :=
  { s with enemyEntries := [], spawnQueue := [], wave := 1, spawnTimer := 0,
           waveInProgress := false }

/-- A manager state with one queued grunt, its wave in progress and the
interval not yet elapsed, used by gate witnesses. -/
def gateDemoState : EnemyManager :=
  { initialEnemyManager with spawnQueue := [EnemyType.grunt], waveInProgress := true }

/-- A neutral tick input for witnesses. -/
def demoInput : TickInput :=
  { delta := 1/10, playerPosition := none, shuffle := id, spawnPos := vZero }

/-- A dead grunt entry with a fresh death timer, used by witnesses. -/
def deadDemoEntry : EnemyEntry :=
  { enemy :=
      { config := enemyDefinitions EnemyType.grunt, position := vZero, health := 0,
        isAlive := false, timeSinceLastAttack := 0, boundingRadius := 63/50 },
    deathTimer := 0 }

/-- A manager whose only entry is a dead enemy awaiting cleanup. -/
def deadDemoState : EnemyManager :=
  { initialEnemyManager with enemyEntries := [deadDemoEntry] }

/-- C2: `takeDamage` on an alive enemy with `amount < health` subtracts
exactly `amount` and is not fatal; with `amount >= health` it clamps
health to `0`, clears `isAlive` and is fatal; on a dead enemy it changes
nothing and returns `false`. -/
theorem takeDamage_cases (e : Enemy) (amount : ℚ) :
    (e.isAlive = true → amount < e.health →
      e.takeDamage amount = ({ e with health := e.health - amount }, false)) ∧
    (e.isAlive = true → e.health ≤ amount →
      e.takeDamage amount = ({ e with health := 0, isAlive := false }, true)) ∧
    (e.isAlive = false → e.takeDamage amount = (e, false)) := by
  refine ⟨?_, ?_, ?_⟩
  · intro halive hlt
    unfold Enemy.takeDamage
    rw [halive]
    simp only [Bool.true_eq_false, if_false]
    rw [if_neg (by linarith)]
  · intro halive hle
    unfold Enemy.takeDamage
    rw [halive]
    simp only [Bool.true_eq_false, if_false]
    rw [if_pos (by linarith)]
  · intro hdead
    unfold Enemy.takeDamage
    rw [hdead]
    simp

/-- Witness for `takeDamage_cases` at a concrete enemy. -/
theorem takeDamage_cases_witness :
    (let e : Enemy :=
      { config :=
          { id := EnemyType.grunt, maxHealth := 60, speed := 11/2, damage := 10,
            reward := 60, attackRange := 19/10, attackCooldown := 14/10,
            scale := 21/20 },
        position := vZero, health := 60, isAlive := true,
        timeSinceLastAttack := 0, boundingRadius := 63/50 }
    e.isAlive = true ∧ (10 : ℚ) < e.health ∧
      e.takeDamage 10 = ({ e with health := 50 }, false)) := by
  refine ⟨rfl, by norm_num, ?_⟩
  have h := (takeDamage_cases
    { config :=
        { id := EnemyType.grunt, maxHealth := 60, speed := 11/2, damage := 10,
          reward := 60, attackRange := 19/10, attackCooldown := 14/10,
          scale := 21/20 },
      position := vZero, health := 60, isAlive := true,
      timeSinceLastAttack := 0, boundingRadius := 63/50 } 10).1 rfl (by norm_num)
  have h60 : (60 : ℚ) - 10 = 50 := by norm_num
  rw [h60] at h
  exact h

/-- C3: for every wave number `w >= 1`, any reordering of the composed
spawn list holds exactly `5 + 2 w` grunts, `floor(w / 2)` runners exactly
when `w >= 3`, and `1 + floor(w / 6)` brutes exactly when `w % 4 == 0`;
in particular wave 1 is 7 entries, all grunts, and wave 4 holds exactly
one brute. -/
theorem waveComposition_counts (w : Nat) (hw : 1 ≤ w) (q : List EnemyType)
    (hq : q.Perm (waveComposition w)) :
    q.count EnemyType.grunt = 5 + 2 * w ∧
    q.count EnemyType.runner = (if 3 ≤ w then w / 2 else 0) ∧
    q.count EnemyType.brute = (if w % 4 = 0 then 1 + w / 6 else 0) ∧
    q.length = (5 + 2 * w) + (if 3 ≤ w then w / 2 else 0) +
      (if w % 4 = 0 then 1 + w / 6 else 0) ∧
    (w = 1 → q.count EnemyType.grunt = 7 ∧ q.length = 7) ∧
    (w = 4 → q.count EnemyType.brute = 1) := by
  have hg : q.count EnemyType.grunt = 5 + 2 * w := by
    rw [hq.count_eq]
    unfold waveComposition
    split <;> split <;>
      simp [List.count_append, List.count_replicate] <;> ring
  have hr : q.count EnemyType.runner = (if 3 ≤ w then w / 2 else 0) := by
    rw [hq.count_eq]
    unfold waveComposition
    split <;> split <;> simp [List.count_append, List.count_replicate]
  have hb : q.count EnemyType.brute = (if w % 4 = 0 then 1 + w / 6 else 0) := by
    rw [hq.count_eq]
    unfold waveComposition
    split <;> split <;> simp [List.count_append, List.count_replicate]
  have hl : q.length = (5 + 2 * w) + (if 3 ≤ w then w / 2 else 0) +
      (if w % 4 = 0 then 1 + w / 6 else 0) := by
    rw [hq.length_eq]
    unfold waveComposition
    split <;> split <;> simp [List.length_append, List.length_replicate] <;> ring
  refine ⟨hg, hr, hb, hl, ?_, ?_⟩
  · intro h1
    subst h1
    constructor
    · rw [hg]
    · rw [hl]
      decide
  · intro h4
    subst h4
    rw [hb]
    decide

/-- Witness for `waveComposition_counts` at wave 4 and the identity
reordering. -/
theorem waveComposition_counts_witness :
    1 ≤ 4 ∧ (waveComposition 4).Perm (waveComposition 4) ∧
    (waveComposition 4).count EnemyType.grunt = 13 ∧
    (waveComposition 4).count EnemyType.runner = 2 ∧
    (waveComposition 4).count EnemyType.brute = 1 := by
  have h := waveComposition_counts 4 (by decide) (waveComposition 4) (List.Perm.refl _)
  exact ⟨by decide, List.Perm.refl _, h.1, by simpa using h.2.1, by simpa using h.2.2.1⟩

theorem mergeBest_none_left (b : Option (Nat × ℚ)) : mergeBest none b = b := by
  cases b with
  | none => rfl
  | some c => rfl

theorem mergeBest_assoc (a b c : Option (Nat × ℚ)) :
    mergeBest (mergeBest a b) c = mergeBest a (mergeBest b c) := by
  rcases a with _ | ⟨j, m⟩ <;> rcases b with _ | ⟨i, d⟩ <;> rcases c with _ | ⟨k, e⟩ <;>
    simp only [mergeBest, mergeBest_none_left]
  · split <;> rfl
  · split_ifs <;>
      simp only [mergeBest] <;> first | rfl | (split_ifs <;> first | rfl | linarith)

theorem considerEnemy_eq (pos : Vec3) (best : Option (Nat × ℚ)) (ie : Nat × EnemyEntry) :
    considerEnemy pos best ie =
      if entryHit pos ie.2 = true then
        mergeBest best (some (ie.1, entryDist pos ie.2))
      else
        best := by
  unfold considerEnemy entryHit entryDist
  cases halive : ie.2.enemy.isAlive with
  | false => simp [halive]
  | true =>
    simp only [halive, Bool.true_and, Bool.false_eq_true, if_false, decide_eq_true_eq]
    by_cases hd : Vec3.distanceToSquared ie.2.enemy.position pos ≤
        ie.2.enemy.boundingRadius * ie.2.enemy.boundingRadius
    · rw [if_pos hd, if_pos hd]
      cases best with
      | none => rfl
      | some b => rfl
    · rw [if_neg hd, if_neg hd]
      simp

theorem findHitLoop_merge (pos : Vec3) (l : List (Nat × EnemyEntry)) :
    ∀ best, findHitLoop pos l best = mergeBest best (findHitLoop pos l none) := by
  induction l with
  | nil =>
    intro best
    cases best <;> rfl
  | cons ie rest ih =>
    intro best
    show findHitLoop pos rest (considerEnemy pos best ie) = _
    rw [ih (considerEnemy pos best ie)]
    conv_rhs => rw [show findHitLoop pos (ie :: rest) none =
      findHitLoop pos rest (considerEnemy pos none ie) from rfl]
    rw [ih (considerEnemy pos none ie)]
    rw [considerEnemy_eq, considerEnemy_eq]
    by_cases hh : entryHit pos ie.2 = true
    · rw [if_pos hh, if_pos hh, mergeBest_none_left]
      exact mergeBest_assoc best _ _
    · rw [if_neg hh, if_neg hh, mergeBest_none_left]

/-- Full characterization of the `forEach` scan over the indexed suffix
`enumFrom k l` starting from an empty accumulator: a `none` result means
no entry of `l` is hit; a `some (i, d)` result is the first entry of `l`
attaining the minimal squared distance among hit entries. -/
theorem findHitLoop_spec (pos : Vec3) (l : List EnemyEntry) :
    ∀ (k : Nat),
      (findHitLoop pos (List.enumFrom k l) none = none →
        ∀ entry ∈ l, entryHit pos entry = false) ∧
      (∀ i d, findHitLoop pos (List.enumFrom k l) none = some (i, d) →
        ∃ n entry, l.get? n = some entry ∧ i = k + n ∧ entryHit pos entry = true ∧
          d = entryDist pos entry ∧
          (∀ m em, l.get? m = some em → entryHit pos em = true → d ≤ entryDist pos em) ∧
          (∀ m em, m < n → l.get? m = some em → entryHit pos em = true →
            d < entryDist pos em)) := by
  induction l with
  | nil =>
    intro k
    constructor
    · intro _ entry h
      simp at h
    · intro i d h
      simp [List.enumFrom, findHitLoop] at h
  | cons e rest ih =>
    intro k
    have hstep : findHitLoop pos (List.enumFrom k (e :: rest)) none =
        mergeBest (considerEnemy pos none (k, e))
          (findHitLoop pos (List.enumFrom (k + 1) rest) none) := by
      show findHitLoop pos (List.enumFrom (k + 1) rest) (considerEnemy pos none (k, e)) = _
      exact findHitLoop_merge pos _ _
    rw [considerEnemy_eq] at hstep
    by_cases hh : entryHit pos e = true
    · rw [if_pos hh, mergeBest_none_left] at hstep
      rcases hB : findHitLoop pos (List.enumFrom (k + 1) rest) none with _ | ⟨i', d'⟩
      · rw [hB] at hstep
        have hnohit := (ih (k + 1)).1 hB
        constructor
        · intro hnone
          rw [hstep] at hnone
          simp [mergeBest] at hnone
        · intro i d hs
          rw [hstep] at hs
          simp only [mergeBest, Option.some.injEq, Prod.mk.injEq] at hs
          obtain ⟨hik, hdd⟩ := hs
          refine ⟨0, e, rfl, by omega, hh, by simpa using hdd.symm, ?_, ?_⟩
          · intro m em hm hhitm
            cases m with
            | zero =>
              rw [List.get?_cons_zero] at hm
              cases hm
              subst hdd
              exact le_refl _
            | succ m =>
              rw [List.get?_cons_succ] at hm
              exact absurd hhitm (by simp [hnohit em (List.get?_mem hm)])
          · intro m em hmlt _ _
            omega
      · rw [hB] at hstep
        obtain ⟨n', entry', hget', hi', hhit', hd', hmin', hstrict'⟩ :=
          (ih (k + 1)).2 i' d' hB
        by_cases hlt : d' < entryDist pos e
        · constructor
          · intro hnone
            rw [hstep] at hnone
            simp [mergeBest, if_pos hlt] at hnone
          · intro i d hs
            rw [hstep] at hs
            simp only [mergeBest, if_pos hlt, Option.some.injEq, Prod.mk.injEq] at hs
            obtain ⟨hik, hdd⟩ := hs
            refine ⟨n' + 1, entry', by rw [List.get?_cons_succ]; exact hget',
              by omega, hhit', by rw [← hdd]; exact hd', ?_, ?_⟩
            · intro m em hm hhitm
              cases m with
              | zero =>
                rw [List.get?_cons_zero] at hm
                cases hm
                rw [← hdd]
                exact le_of_lt hlt
              | succ m =>
                rw [List.get?_cons_succ] at hm
                rw [← hdd]
                exact hmin' m em hm hhitm
            · intro m em hmlt hm hhitm
              cases m with
              | zero =>
                rw [List.get?_cons_zero] at hm
                cases hm
                rw [← hdd]
                exact hlt
              | succ m =>
                rw [List.get?_cons_succ] at hm
                rw [← hdd]
                exact hstrict' m em (by omega) hm hhitm
        · constructor
          · intro hnone
            rw [hstep] at hnone
            simp [mergeBest, if_neg hlt] at hnone
          · intro i d hs
            rw [hstep] at hs
            simp only [mergeBest, if_neg hlt, Option.some.injEq, Prod.mk.injEq] at hs
            obtain ⟨hik, hdd⟩ := hs
            refine ⟨0, e, rfl, by omega, hh, hdd.symm, ?_, ?_⟩
            · intro m em hm hhitm
              cases m with
              | zero =>
                rw [List.get?_cons_zero] at hm
                cases hm
                rw [← hdd]
              | succ m =>
                rw [List.get?_cons_succ] at hm
                have h1 := hmin' m em hm hhitm
                rw [← hdd]
                push_neg at hlt
                linarith
            · intro m em hmlt _ _
              omega
    · rw [if_neg hh, mergeBest_none_left] at hstep
      have hhf : entryHit pos e = false := by
        cases hval : entryHit pos e
        · rfl
        · exact absurd hval hh
      constructor
      · intro hnone
        rw [hstep] at hnone
        have hnohit := (ih (k + 1)).1 hnone
        intro entry hmem
        rcases List.mem_cons.mp hmem with heq | hmem'
        · rw [heq]
          exact hhf
        · exact hnohit entry hmem'
      · intro i d hs
        rw [hstep] at hs
        obtain ⟨n', entry', hget', hi', hhit', hd', hmin', hstrict'⟩ :=
          (ih (k + 1)).2 i d hs
        refine ⟨n' + 1, entry', by rw [List.get?_cons_succ]; exact hget',
          by omega, hhit', hd', ?_, ?_⟩
        · intro m em hm hhitm
          cases m with
          | zero =>
            rw [List.get?_cons_zero] at hm
            cases hm
            exact absurd hhitm (by simp [hhf])
          | succ m =>
            rw [List.get?_cons_succ] at hm
            exact hmin' m em hm hhitm
        · intro m em hmlt hm hhitm
          cases m with
          | zero =>
            rw [List.get?_cons_zero] at hm
            cases hm
            exact absurd hhitm (by simp [hhf])
          | succ m =>
            rw [List.get?_cons_succ] at hm
            exact hstrict' m em (by omega) hm hhitm

/-- Taking damage never changes the configured stats. -/
theorem takeDamage_config (e : Enemy) (amount : ℚ) :
    (e.takeDamage amount).1.config = e.config := by
  unfold Enemy.takeDamage
  split
  · rfl
  · dsimp only
    split <;> rfl

/-- C1: `handleProjectileImpact` returns `null` exactly when no alive
enemy's hit-sphere contains the position, leaving the roster unchanged;
otherwise it hits the entry at minimal squared distance (first in
iteration order on ties), applies `takeDamage` to exactly that entry, and
reports fatality, the configured reward on a fatal hit (zero otherwise)
and the damage value. -/
theorem handleProjectileImpact_spec (entries : List EnemyEntry) (pos : Vec3) (damage : ℚ) :
    ((handleProjectileImpact entries pos damage).2 = none ↔
      ∀ entry ∈ entries, entryHit pos entry = false) ∧
    ((handleProjectileImpact entries pos damage).2 = none →
      (handleProjectileImpact entries pos damage).1 = entries) ∧
    (∀ imp, (handleProjectileImpact entries pos damage).2 = some imp →
      ∃ entry, entries.get? imp.enemyIdx = some entry ∧
        entryHit pos entry = true ∧
        (∀ j ej, entries.get? j = some ej → entryHit pos ej = true →
          entryDist pos entry ≤ entryDist pos ej) ∧
        (∀ j ej, j < imp.enemyIdx → entries.get? j = some ej → entryHit pos ej = true →
          entryDist pos entry < entryDist pos ej) ∧
        (handleProjectileImpact entries pos damage).1 =
          entries.set imp.enemyIdx { entry with enemy := (entry.enemy.takeDamage damage).1 } ∧
        imp.wasFatal = (entry.enemy.takeDamage damage).2 ∧
        imp.reward = (if (entry.enemy.takeDamage damage).2 = true then
          entry.enemy.config.reward else 0) ∧
        imp.damage = damage) := by
  have hspec := findHitLoop_spec pos entries 0
  rcases hfind : findHitEnemy entries pos with _ | ⟨i, dval⟩
  · have hall := hspec.1 hfind
    have hres : handleProjectileImpact entries pos damage = (entries, none) := by
      unfold handleProjectileImpact
      rw [hfind]
    rw [hres]
    refine ⟨⟨fun _ => hall, fun _ => rfl⟩, fun _ => rfl, ?_⟩
    intro imp himp
    simp at himp
  · obtain ⟨n, entry, hget, hi, hhit, hd, hmin, hstrict⟩ := hspec.2 i dval hfind
    have hin : i = n := by omega
    subst hin
    have hres : handleProjectileImpact entries pos damage =
        (entries.set i { entry with enemy := (entry.enemy.takeDamage damage).1 },
         some { enemyIdx := i, wasFatal := (entry.enemy.takeDamage damage).2,
                reward := if (entry.enemy.takeDamage damage).2 = true then
                  (entry.enemy.takeDamage damage).1.config.reward else 0,
                damage := damage }) := by
      unfold handleProjectileImpact
      rw [hfind]
      dsimp only
      rw [hget]
    rw [hres]
    refine ⟨⟨?_, ?_⟩, by simp, ?_⟩
    · intro h
      simp at h
    · intro h
      exact absurd (h entry (List.get?_mem hget)) (by simp [hhit])
    · intro imp himp
      simp only [Option.some.injEq] at himp
      subst himp
      refine ⟨entry, hget, hhit, ?_, ?_, rfl, rfl, ?_, rfl⟩
      · intro j ej hj hhj
        rw [← hd]
        exact hmin j ej hj hhj
      · intro j ej hjlt hj hhj
        rw [← hd]
        exact hstrict j ej hjlt hj hhj
      · rw [takeDamage_config]

/-- Witness for `handleProjectileImpact_spec`: a projectile at the origin
fatally hits the lone alive enemy there and collects its reward. -/
theorem handleProjectileImpact_spec_witness :
    (handleProjectileImpact [demoEntry] vZero 100).2 =
      some { enemyIdx := 0, wasFatal := true, reward := 60, damage := 100 } ∧
    entryHit vZero demoEntry = true ∧
    (handleProjectileImpact [demoEntry] vZero 100).1 =
      [{ demoEntry with enemy := (demoEntry.enemy.takeDamage 100).1 }] := by
  have himp : (handleProjectileImpact [demoEntry] vZero 100).2 =
      some { enemyIdx := 0, wasFatal := true, reward := 60, damage := 100 } := by
    norm_num [handleProjectileImpact, findHitEnemy, findHitLoop, considerEnemy, demoEntry,
      enemyDefinitions, Vec3.distanceToSquared, Vec3.lengthSq, Vec3.sub, vZero,
      Enemy.takeDamage, List.enum, List.enumFrom]
  obtain ⟨entry, hget, hhit, hmin, hstrict, hset, hfatal, hreward, hdmg⟩ :=
    (handleProjectileImpact_spec [demoEntry] vZero 100).2.2 _ himp
  have hentry : entry = demoEntry := by
    simp only [List.get?_cons_zero, Option.some.injEq] at hget
    exact hget.symm
  subst hentry
  exact ⟨himp, hhit, by simpa using hset⟩

/-- Case analysis of one loop iteration on an active projectile: expiry
deactivates with the enemy entries untouched and no impact event;
otherwise the impact query decides between a hit (deactivation with the
event) and survival. -/
theorem stepProjectile_characterization (delta : ℚ) (p : Projectile)
    (entries : List EnemyEntry) (hactive : p.active = true) :
    (expiresOnTick delta p →
      stepProjectile delta p entries =
        { kept := none, pooled := some (deactivate (advanceProjectile delta p)),
          entries := entries, impact := none }) ∧
    (¬ expiresOnTick delta p →
      (handleProjectileImpact entries (advanceProjectile delta p).position
          (advanceProjectile delta p).damage).2 = none →
        stepProjectile delta p entries =
          { kept := some (advanceProjectile delta p), pooled := none,
            entries := (handleProjectileImpact entries (advanceProjectile delta p).position
              (advanceProjectile delta p).damage).1,
            impact := none }) ∧
    (∀ imp, ¬ expiresOnTick delta p →
      (handleProjectileImpact entries (advanceProjectile delta p).position
          (advanceProjectile delta p).damage).2 = some imp →
        stepProjectile delta p entries =
          { kept := none, pooled := some (deactivate (advanceProjectile delta p)),
            entries := (handleProjectileImpact entries (advanceProjectile delta p).position
              (advanceProjectile delta p).damage).1,
            impact := some imp }) := by
  have hnotfalse : ¬ p.active = false := by simp [hactive]
  refine ⟨?_, ?_, ?_⟩
  · intro hexp
    unfold expiresOnTick at hexp
    unfold stepProjectile
    rw [if_neg hnotfalse]
    dsimp only
    rw [if_pos hexp]
  · intro hexp hnone
    unfold expiresOnTick at hexp
    unfold stepProjectile
    rw [if_neg hnotfalse]
    dsimp only
    rw [if_neg hexp]
    rcases hq : handleProjectileImpact entries (advanceProjectile delta p).position
        (advanceProjectile delta p).damage with ⟨entries', oimp⟩
    rw [hq] at hnone
    simp only at hnone
    subst hnone
    simp [hq]
  · intro imp hexp hsome
    unfold expiresOnTick at hexp
    unfold stepProjectile
    rw [if_neg hnotfalse]
    dsimp only
    rw [if_neg hexp]
    rcases hq : handleProjectileImpact entries (advanceProjectile delta p).position
        (advanceProjectile delta p).damage with ⟨entries', oimp⟩
    rw [hq] at hsome
    simp only at hsome
    subst hsome
    simp [hq]

/-- C5: within one tick an active projectile despawns for at most one
reason, expiry checked before impact: an expiring projectile leaves the
enemy entries untouched and fires no `onEnemyHit` event; a non-expiring
one fires exactly the event the impact query returns and survives exactly
when that query reports no hit.  In particular no projectile both
expires and registers a hit on the same tick. -/
theorem projectile_single_despawn_reason (delta : ℚ) (p : Projectile)
    (entries : List EnemyEntry) (hactive : p.active = true) :
    (expiresOnTick delta p →
      stepProjectile delta p entries =
        { kept := none, pooled := some (deactivate (advanceProjectile delta p)),
          entries := entries, impact := none }) ∧
    (¬ expiresOnTick delta p →
      (stepProjectile delta p entries).impact =
        (handleProjectileImpact entries (advanceProjectile delta p).position
          (advanceProjectile delta p).damage).2 ∧
      ((stepProjectile delta p entries).kept = some (advanceProjectile delta p) ↔
        (stepProjectile delta p entries).impact = none)) ∧
    ¬ (expiresOnTick delta p ∧ (stepProjectile delta p entries).impact ≠ none) := by
  obtain ⟨hexp, hsurv, hhit⟩ := stepProjectile_characterization delta p entries hactive
  refine ⟨hexp, ?_, ?_⟩
  · intro hne
    rcases hq : (handleProjectileImpact entries (advanceProjectile delta p).position
        (advanceProjectile delta p).damage).2 with _ | imp
    · rw [hsurv hne hq]
      simp
    · rw [hhit imp hne hq]
      simp
  · rintro ⟨he, hi⟩
    rw [hexp he] at hi
    simp at hi

/-- Witness for `projectile_single_despawn_reason`: a just-fired default
projectile hit with a huge delta expires without querying the lone enemy
standing at its position. -/
theorem projectile_single_despawn_reason_witness :
    ((1 : ℚ) ≤ (1 : ℚ)) ∧
    ({ freshProjectile with active := true } : Projectile).active = true ∧
    stepProjectile 100 { freshProjectile with active := true } [demoEntry] =
      { kept := none,
        pooled := some (deactivate (advanceProjectile 100 { freshProjectile with active := true })),
        entries := [demoEntry], impact := none } := by
  refine ⟨le_refl 1, rfl, ?_⟩
  have h := (projectile_single_despawn_reason 100
    { freshProjectile with active := true } [demoEntry] rfl).1
  apply h
  unfold expiresOnTick advanceProjectile freshProjectile
  norm_num

/-- Whatever `update` pushes onto the pool has been `deactivate`d, so its
`distanceTravelled` is `0`. -/
theorem stepProjectile_pooled_reset (delta : ℚ) (p : Projectile) (entries : List EnemyEntry) :
    ∀ q, (stepProjectile delta p entries).pooled = some q → q.distanceTravelled = 0 := by
  intro q hq
  unfold stepProjectile at hq
  by_cases ha : p.active = false
  · rw [if_pos ha] at hq
    simp only [Option.some.injEq] at hq
    subst hq
    rfl
  · rw [if_neg ha] at hq
    dsimp only at hq
    by_cases he : (advanceProjectile delta p).distanceTravelled ≥
        (advanceProjectile delta p).maxDistance ∨ (advanceProjectile delta p).timeToLive ≤ 0
    · rw [if_pos he] at hq
      simp only [Option.some.injEq] at hq
      subst hq
      rfl
    · rw [if_neg he] at hq
      rcases hh : handleProjectileImpact entries (advanceProjectile delta p).position
          (advanceProjectile delta p).damage with ⟨entries', oimp⟩
      rw [hh] at hq
      cases oimp with
      | none => simp at hq
      | some imp =>
        simp only [Option.some.injEq] at hq
        subst hq
        rfl

/-- A projectile that survives a tick is the advanced one: still active,
same speed and range, with accumulated travel below the range. -/
theorem stepProjectile_kept_inv (delta : ℚ) (hdelta : 0 ≤ delta) (p : Projectile)
    (entries : List EnemyEntry) (hactive : p.active = true) (hsp : 0 ≤ p.speed)
    (hd0 : 0 ≤ p.distanceTravelled) :
    ∀ p', (stepProjectile delta p entries).kept = some p' →
      p'.active = true ∧ 0 ≤ p'.speed ∧ 0 ≤ p'.distanceTravelled ∧
        p'.distanceTravelled < p'.maxDistance := by
  intro p' hp'
  have ha : ¬ p.active = false := by simp [hactive]
  unfold stepProjectile at hp'
  rw [if_neg ha] at hp'
  dsimp only at hp'
  by_cases he : (advanceProjectile delta p).distanceTravelled ≥
      (advanceProjectile delta p).maxDistance ∨ (advanceProjectile delta p).timeToLive ≤ 0
  · rw [if_pos he] at hp'
    simp at hp'
  · rw [if_neg he] at hp'
    rcases hh : handleProjectileImpact entries (advanceProjectile delta p).position
        (advanceProjectile delta p).damage with ⟨entries', oimp⟩
    rw [hh] at hp'
    cases oimp with
    | some imp => simp at hp'
    | none =>
      simp only [Option.some.injEq] at hp'
      subst hp'
      push_neg at he
      refine ⟨hactive, hsp, ?_, ?_⟩
      · show 0 ≤ p.distanceTravelled + p.speed * delta
        have := mul_nonneg hsp hdelta
        linarith
      · exact he.1

/-- Per-tick preservation of the travel invariant over the whole loop. -/
theorem updateProjectiles_inv (delta : ℚ) (hdelta : 0 ≤ delta) :
    ∀ (l : List Projectile) (entries : List EnemyEntry),
      (∀ p ∈ l, p.active = true ∧ 0 ≤ p.speed ∧ 0 ≤ p.distanceTravelled) →
      (∀ p ∈ (updateProjectiles delta l entries).1,
        p.active = true ∧ 0 ≤ p.speed ∧ 0 ≤ p.distanceTravelled ∧
          p.distanceTravelled < p.maxDistance) ∧
      (∀ q ∈ (updateProjectiles delta l entries).2.1, q.distanceTravelled = 0) := by
  intro l
  induction l with
  | nil =>
    intro entries _
    constructor <;> intro x hx <;> simp [updateProjectiles] at hx
  | cons p rest ih =>
    intro entries hl
    obtain ⟨hactive, hsp, hd0⟩ := hl p (List.mem_cons_self p rest)
    have hrest := fun q hq => hl q (List.mem_cons_of_mem p hq)
    obtain ⟨ihs, ihp⟩ := ih entries hrest
    constructor
    · intro x hx
      rcases hk : (stepProjectile delta p (updateProjectiles delta rest entries).2.2.1).kept
        with _ | p'
      · rw [show (updateProjectiles delta (p :: rest) entries).1 =
            (updateProjectiles delta rest entries).1 by
          simp only [updateProjectiles]
          rw [hk]] at hx
        exact ihs x hx
      · rw [show (updateProjectiles delta (p :: rest) entries).1 =
            p' :: (updateProjectiles delta rest entries).1 by
          simp only [updateProjectiles]
          rw [hk]] at hx
        rcases List.mem_cons.mp hx with hxe | hxm
        · subst hxe
          exact stepProjectile_kept_inv delta hdelta p _ hactive hsp hd0 x hk
        · exact ihs x hxm
    · intro q hq
      rw [show (updateProjectiles delta (p :: rest) entries).2.1 =
          (updateProjectiles delta rest entries).2.1 ++
            (stepProjectile delta p (updateProjectiles delta rest entries).2.2.1).pooled.toList
          from by simp only [updateProjectiles]] at hq
      rcases List.mem_append.mp hq with hq1 | hq2
      · exact ihp q hq1
      · rcases hp : (stepProjectile delta p (updateProjectiles delta rest entries).2.2.1).pooled
          with _ | q'
        · rw [hp] at hq2
          simp at hq2
        · rw [hp] at hq2
          simp only [Option.toList_some, List.mem_singleton] at hq2
          subst hq2
          exact stepProjectile_pooled_reset delta p _ q hp

theorem projInv_initial : ProjInv initialProjectileSystem := by
  constructor <;> intro x hx <;> simp [initialProjectileSystem] at hx

theorem projInv_spawn (nrm : Vec3 → Vec3) (s : ProjectileSystem) (params : SpawnParams)
    (hs : ProjInv s) (hsp : 0 ≤ params.speed) (hmd : 0 ≤ params.maxDistance) :
    ProjInv (spawnProjectile nrm s params) := by
  constructor
  · intro p hp
    unfold spawnProjectile at hp
    dsimp only at hp
    rcases List.mem_append.mp hp with hp1 | hp2
    · exact hs.1 p hp1
    · rw [List.mem_singleton] at hp2
      subst hp2
      exact ⟨rfl, hsp, le_refl 0, hmd⟩
  · intro q hq
    unfold spawnProjectile getProjectile at hq
    dsimp only at hq
    rcases hlast : s.pool.getLast? with _ | p0
    · rw [hlast] at hq
      exact hs.2 q hq
    · rw [hlast] at hq
      exact hs.2 q ((List.dropLast_sublist s.pool).subset hq)

theorem projInv_update (delta : ℚ) (hdelta : 0 ≤ delta) (s : ProjectileSystem)
    (entries : List EnemyEntry) (hs : ProjInv s) :
    ProjInv (ProjectileSystem.update delta s entries).1 := by
  have hl : ∀ p ∈ s.projectiles, p.active = true ∧ 0 ≤ p.speed ∧ 0 ≤ p.distanceTravelled :=
    fun p hp => ⟨(hs.1 p hp).1, (hs.1 p hp).2.1, (hs.1 p hp).2.2.1⟩
  obtain ⟨hsurv, hpool⟩ := updateProjectiles_inv delta hdelta s.projectiles entries hl
  constructor
  · intro p hp
    have := hsurv p hp
    exact ⟨this.1, this.2.1, this.2.2.1, le_of_lt this.2.2.2⟩
  · intro q hq
    rcases List.mem_append.mp hq with hq1 | hq2
    · exact hs.2 q hq1
    · exact hpool q hq2

/-- C4 as stated is refuted by a single spawn with a negative
`maxDistance` (the claim constrains deltas and speeds only): the spawned
projectile is active with `distanceTravelled = 0 > maxDistance = -1`. -/
theorem c4Claim_false : ¬ c4Claim := by
  intro h
  have hok : ∀ a ∈ [PAction.spawn
      { position := vZero, direction := vZero, speed := 0, damage := 0, maxDistance := -1 }],
      actionOkC4 a := by
    intro a ha
    rw [List.mem_singleton] at ha
    subst ha
    show (0 : ℚ) ≤ 0
    exact le_refl 0
  have hrun : (runPActions id [PAction.spawn
      { position := vZero, direction := vZero, speed := 0, damage := 0, maxDistance := -1 }]
      initialProjectileSystem).projectiles =
      [{ position := vZero, direction := vZero, speed := 0, damage := 0, maxDistance := -1,
         distanceTravelled := 0, timeToLive := DEFAULT_PROJECTILE_LIFETIME, active := true }] := by
    rfl
  have hbad := ((h id _ hok).1 _ (by rw [hrun]; exact List.mem_singleton_self _)).2
  norm_num at hbad

theorem projInv_run (nrm : Vec3 → Vec3) :
    ∀ (acts : List PAction) (s : ProjectileSystem), (∀ a ∈ acts, actionOk a) → ProjInv s →
      ProjInv (runPActions nrm acts s) := by
  intro acts
  induction acts with
  | nil => intro s _ hs; exact hs
  | cons a rest ih =>
    intro s hok hs
    have hrest := fun b hb => hok b (List.mem_cons_of_mem a hb)
    have ha := hok a (List.mem_cons_self a rest)
    cases a with
    | spawn params =>
      exact ih _ hrest (projInv_spawn nrm s params hs ha.1 ha.2)
    | tick delta entries =>
      exact ih _ hrest (projInv_update delta ha s entries hs)

/-- C4, amended: with the additionally necessary requirement that every
spawn's `maxDistance` is non-negative, every active projectile satisfies
`0 ≤ distanceTravelled ≤ maxDistance` and every pooled projectile has
`distanceTravelled = 0`, after any sequence of spawn and update calls
with non-negative deltas and speeds. -/
theorem projectile_travel_invariant (nrm : Vec3 → Vec3) (acts : List PAction)
    (hok : ∀ a ∈ acts, actionOk a) :
    (∀ p ∈ (runPActions nrm acts initialProjectileSystem).projectiles,
      0 ≤ p.distanceTravelled ∧ p.distanceTravelled ≤ p.maxDistance) ∧
    (∀ q ∈ (runPActions nrm acts initialProjectileSystem).pool, q.distanceTravelled = 0) := by
  have h := projInv_run nrm acts initialProjectileSystem hok projInv_initial
  exact ⟨fun p hp => ⟨(h.1 p hp).2.2.1, (h.1 p hp).2.2.2⟩, h.2⟩

/-- Witness for `projectile_travel_invariant` at `demoActs`. -/
theorem projectile_travel_invariant_witness :
    (∀ a ∈ demoActs, actionOk a) ∧
    (∀ p ∈ (runPActions id demoActs initialProjectileSystem).projectiles,
      0 ≤ p.distanceTravelled ∧ p.distanceTravelled ≤ p.maxDistance) := by
  have hok : ∀ a ∈ demoActs, actionOk a := by
    intro a ha
    unfold demoActs at ha
    rcases List.mem_cons.mp ha with h1 | h2
    · subst h1
      exact ⟨by norm_num, by norm_num⟩
    · rw [List.mem_singleton] at h2
      subst h2
      norm_num [actionOk]
  exact ⟨hok, (projectile_travel_invariant id _ hok).1⟩

theorem runTicksNoEnemies_empty :
    ∀ (ds : List ℚ) (s : ProjectileSystem), s.projectiles = [] →
      (runTicksNoEnemies ds s).projectiles = [] := by
  intro ds
  induction ds with
  | nil => intro s hs; exact hs
  | cons d rest ih =>
    intro s hs
    apply ih
    show (updateProjectiles d s.projectiles []).1 = []
    rw [hs]
    rfl

theorem runTicksNoEnemies_single :
    ∀ (ds : List ℚ) (p : Projectile) (pool : List Projectile),
      (∀ d ∈ ds, 0 < d) → p.active = true → p.speed = 10 → p.maxDistance = 10 →
      p.distanceTravelled < 10 → 10 - p.distanceTravelled ≤ 10 * ds.sum →
      (runTicksNoEnemies ds { projectiles := [p], pool := pool }).projectiles = [] := by
  intro ds
  induction ds with
  | nil =>
    intro p pool _ _ _ _ hlt hbudget
    exfalso
    rw [List.sum_nil] at hbudget
    linarith
  | cons d rest ih =>
    intro p pool hpos hactive hspeed hmax hlt hbudget
    have hdpos := hpos d (List.mem_cons_self d rest)
    have hrestpos := fun x hx => hpos x (List.mem_cons_of_mem d hx)
    have hchar := stepProjectile_characterization d p [] hactive
    by_cases hexp : expiresOnTick d p
    · have h1 := hchar.1 hexp
      show (runTicksNoEnemies rest (ProjectileSystem.update d
        { projectiles := [p], pool := pool } []).1).projectiles = []
      apply runTicksNoEnemies_empty
      show (updateProjectiles d [p] []).1 = []
      simp only [updateProjectiles, h1]
    · have himpact : (handleProjectileImpact ([] : List EnemyEntry)
          (advanceProjectile d p).position (advanceProjectile d p).damage).2 = none := rfl
      have h2 := hchar.2.1 hexp himpact
      show (runTicksNoEnemies rest (ProjectileSystem.update d
        { projectiles := [p], pool := pool } []).1).projectiles = []
      have hupd : (ProjectileSystem.update d { projectiles := [p], pool := pool } []).1 =
          { projectiles := [advanceProjectile d p], pool := pool } := by
        show ({ projectiles := (updateProjectiles d [p] []).1,
                pool := pool ++ (updateProjectiles d [p] []).2.1 } : ProjectileSystem) = _
        simp only [updateProjectiles, h2]
        simp
      rw [hupd]
      unfold expiresOnTick at hexp
      push_neg at hexp
      have hdt : (advanceProjectile d p).distanceTravelled =
          p.distanceTravelled + p.speed * d := rfl
      apply ih (advanceProjectile d p) pool hrestpos hactive hspeed hmax
      · have := hexp.1
        rw [hdt]
        show p.distanceTravelled + p.speed * d < 10
        calc p.distanceTravelled + p.speed * d <
            (advanceProjectile d p).maxDistance := by rw [← hdt]; exact this
          _ = 10 := by show p.maxDistance = 10; exact hmax
      · rw [hdt, hspeed]
        rw [List.sum_cons] at hbudget
        linarith

/-- C8: a projectile spawned with `maxDistance = 10` and `speed = 10` is
no longer active after any sequence of positive ticks whose accumulated
time reaches `1` second, with no enemies present. -/
theorem projectile_expires_within_budget (nrm : Vec3 → Vec3) (ds : List ℚ)
    (hpos : ∀ d ∈ ds, 0 < d) (hsum : 1 ≤ ds.sum) (origin dirv : Vec3) (damage : ℚ) :
    (runTicksNoEnemies ds (spawnProjectile nrm initialProjectileSystem
      { position := origin, direction := dirv, speed := 10, damage := damage,
        maxDistance := 10 })).projectiles = [] := by
  have hs : spawnProjectile nrm initialProjectileSystem
      { position := origin, direction := dirv, speed := 10, damage := damage,
        maxDistance := 10 } =
      { projectiles :=
          [{ position := origin, direction := nrm dirv, speed := 10,
             damage := damage, maxDistance := 10, distanceTravelled := 0,
             timeToLive := DEFAULT_PROJECTILE_LIFETIME, active := true }],
        pool := [] } := rfl
  rw [hs]
  apply runTicksNoEnemies_single ds _ [] hpos rfl rfl rfl (by norm_num)
  show (10 : ℚ) - 0 ≤ 10 * ds.sum
  linarith

/-- Witness for `projectile_expires_within_budget`: a single one-second
tick despawns the projectile. -/
theorem projectile_expires_within_budget_witness :
    (∀ d ∈ [(1 : ℚ)], 0 < d) ∧ (1 : ℚ) ≤ [(1 : ℚ)].sum ∧
    (runTicksNoEnemies [(1 : ℚ)] (spawnProjectile id initialProjectileSystem
      { position := vZero, direction := ⟨0, 0, 1⟩, speed := 10, damage := 10,
        maxDistance := 10 })).projectiles = [] := by
  have hpos : ∀ d ∈ [(1 : ℚ)], 0 < d := by
    intro d hd
    rw [List.mem_singleton] at hd
    subst hd
    norm_num
  have hsum : (1 : ℚ) ≤ [(1 : ℚ)].sum := by simp
  exact ⟨hpos, hsum,
    projectile_expires_within_budget id [(1 : ℚ)] hpos hsum vZero ⟨0, 0, 1⟩ 10⟩

/-- C10: `reset` empties the roster and queue, returns the wave number to
1, zeroes the spawn timer and clears the in-progress flag, but leaves the
escalated `spawnInterval` and `maxActive` untouched — so a restarted game
keeps the previous session's pacing instead of the constructor defaults
`DEFAULT_SPAWN_INTERVAL = 3.2` and `DEFAULT_MAX_ACTIVE = 8`. -/
theorem reset_keeps_difficulty (s : EnemyManager) :
    (EnemyManager.reset s).enemyEntries = [] ∧
    (EnemyManager.reset s).spawnQueue = [] ∧
    (EnemyManager.reset s).wave = 1 ∧
    (EnemyManager.reset s).spawnTimer = 0 ∧
    (EnemyManager.reset s).waveInProgress = false ∧
    (EnemyManager.reset s).spawnInterval = s.spawnInterval ∧
    (EnemyManager.reset s).maxActive = s.maxActive ∧
    initialEnemyManager.spawnInterval = DEFAULT_SPAWN_INTERVAL ∧
    initialEnemyManager.maxActive = DEFAULT_MAX_ACTIVE :=
  ⟨rfl, rfl, rfl, rfl, rfl, rfl, rfl, rfl, rfl⟩

/-- Scheduling never touches the difficulty fields or the
roster. -/
theorem maybeScheduleNewWave_fields (inp : TickInput) (s : EnemyManager) :
    (maybeScheduleNewWave inp s).spawnInterval = s.spawnInterval ∧
    (maybeScheduleNewWave inp s).maxActive = s.maxActive ∧
    (maybeScheduleNewWave inp s).enemyEntries = s.enemyEntries := by
  unfold maybeScheduleNewWave
  split_ifs <;> exact ⟨rfl, rfl, rfl⟩

/-- When a wave is already queued (or the roster is non-empty),
`_maybeScheduleNewWave` is the identity. -/
theorem maybeScheduleNewWave_skip (inp : TickInput) (s : EnemyManager)
    (h : s.enemyEntries ≠ [] ∨ s.spawnQueue ≠ []) :
    maybeScheduleNewWave inp s = s := by
  unfold maybeScheduleNewWave
  split_ifs with h1 h2
  · rfl
  · exfalso
    rcases h with hne | hne
    · exact hne (List.length_eq_zero.mp h2.1)
    · exact hne (List.length_eq_zero.mp h2.2)
  · rfl

/-- Spawning (`_handleSpawning`) is the identity whenever the interval has not
elapsed or the alive roster is at capacity. -/
theorem handleSpawning_gate (inp : TickInput) (s : EnemyManager)
    (hgate : s.spawnTimer < s.spawnInterval ∨ s.maxActive ≤ countActiveEnemies s) :
    handleSpawning inp s = s := by
  unfold handleSpawning
  by_cases h1 : s.waveInProgress = false ∨ s.spawnQueue.length = 0
  · rw [if_pos h1]
  · rw [if_neg h1]
    by_cases h2 : s.spawnTimer < s.spawnInterval
    · rw [if_pos h2]
    · rw [if_neg h2]
      rcases hgate with hg | hg
      · exact absurd hg h2
      · rw [if_pos hg]

/-- If `_handleSpawning` changed the queue at all, every gate was open:
the wave was in progress, the interval had elapsed, and the alive count
was strictly below `maxActive`. -/
theorem handleSpawning_dequeue_gate (inp : TickInput) (s : EnemyManager)
    (hchanged : (handleSpawning inp s).spawnQueue ≠ s.spawnQueue) :
    s.waveInProgress = true ∧ s.spawnInterval ≤ s.spawnTimer ∧
      countActiveEnemies s < s.maxActive := by
  by_contra hcon
  apply hchanged
  unfold handleSpawning
  by_cases h1 : s.waveInProgress = false ∨ s.spawnQueue.length = 0
  · rw [if_pos h1]
  · rw [if_neg h1]
    by_cases h2 : s.spawnTimer < s.spawnInterval
    · rw [if_pos h2]
    · by_cases h3 : countActiveEnemies s ≥ s.maxActive
      · rw [if_neg h2, if_pos h3]
      · exfalso
        push_neg at h1
        apply hcon
        refine ⟨?_, not_lt.mp h2, not_le.mp h3⟩
        cases hwip : s.waveInProgress
        · exact absurd rfl (by rw [hwip] at h1; exact h1.1)
        · rfl

/-- C7: when the spawn queue is non-empty but the gate fails — interval
not elapsed, or alive roster at `maxActive` — `_handleSpawning` changes
nothing (no spawn, queue untouched); the queue is ever dequeued only with
the alive count strictly below `maxActive`; and at the tick level a
gate-failing `update` leaves the queue unchanged and performs only the
per-entry bookkeeping on the roster, appending no spawn. -/
theorem spawn_gate_defers (nrm : Vec3 → Vec3) (inp : TickInput) (s : EnemyManager) :
    (s.spawnQueue ≠ [] →
      s.spawnTimer < s.spawnInterval ∨ s.maxActive ≤ countActiveEnemies s →
      handleSpawning inp s = s) ∧
    ((handleSpawning inp s).spawnQueue ≠ s.spawnQueue →
      countActiveEnemies s < s.maxActive) ∧
    (s.spawnQueue ≠ [] →
      s.spawnTimer + inp.delta < s.spawnInterval ∨ s.maxActive ≤ countActiveEnemies s →
      (EnemyManager.update nrm inp s).spawnQueue = s.spawnQueue ∧
      (EnemyManager.update nrm inp s).enemyEntries =
        updateEntries nrm inp.delta inp.playerPosition s.enemyEntries) := by
  refine ⟨fun _ hg => handleSpawning_gate inp s hg,
    fun hch => (handleSpawning_dequeue_gate inp s hch).2.2, ?_⟩
  intro hne hg
  unfold EnemyManager.update
  dsimp only
  rw [maybeScheduleNewWave_skip inp
      { s with elapsed := s.elapsed + inp.delta, spawnTimer := s.spawnTimer + inp.delta }
      (Or.inr hne),
    handleSpawning_gate inp
      { s with elapsed := s.elapsed + inp.delta, spawnTimer := s.spawnTimer + inp.delta } hg]
  exact ⟨rfl, rfl⟩

/-- Witness for `spawn_gate_defers`: one tenth of a second into a fresh
wave the 3.2 s interval has not elapsed, so nothing spawns. -/
theorem spawn_gate_defers_witness :
    gateDemoState.spawnQueue ≠ [] ∧
    (gateDemoState.spawnTimer < gateDemoState.spawnInterval ∨
      gateDemoState.maxActive ≤ countActiveEnemies gateDemoState) ∧
    handleSpawning demoInput gateDemoState = gateDemoState ∧
    (EnemyManager.update id demoInput gateDemoState).spawnQueue = [EnemyType.grunt] := by
  have hne : gateDemoState.spawnQueue ≠ [] := by
    unfold gateDemoState
    simp
  have hg : gateDemoState.spawnTimer < gateDemoState.spawnInterval ∨
      gateDemoState.maxActive ≤ countActiveEnemies gateDemoState := by
    left
    show (0 : ℚ) < DEFAULT_SPAWN_INTERVAL
    norm_num [DEFAULT_SPAWN_INTERVAL]
  have hg' : gateDemoState.spawnTimer + demoInput.delta < gateDemoState.spawnInterval ∨
      gateDemoState.maxActive ≤ countActiveEnemies gateDemoState := by
    left
    show (0 : ℚ) + 1/10 < DEFAULT_SPAWN_INTERVAL
    norm_num [DEFAULT_SPAWN_INTERVAL]
  refine ⟨hne, hg, (spawn_gate_defers id demoInput gateDemoState).1 hne hg, ?_⟩
  rw [((spawn_gate_defers id demoInput gateDemoState).2.2 hne hg').1]
  rfl

/-- Spawning the last queued entry escalates the difficulty exactly as
the source does: wave `+1`, interval `max(0.9, 0.92 * previous)`, cap
`min(24, previous + 1)`, wave no longer in progress. -/
theorem handleSpawning_escalates (inp : TickInput) (s : EnemyManager) (t : EnemyType)
    (hwip : s.waveInProgress = true) (hq : s.spawnQueue = [t])
    (htimer : s.spawnInterval ≤ s.spawnTimer)
    (hcount : countActiveEnemies s < s.maxActive) :
    handleSpawning inp s =
      { s with
        spawnTimer := 0, spawnQueue := [],
        enemyEntries := s.enemyEntries ++ [spawnEnemy t inp.spawnPos],
        wave := s.wave + 1, waveInProgress := false,
        spawnInterval := max (9/10) (s.spawnInterval * (92/100)),
        maxActive := min 24 (s.maxActive + 1) } := by
  unfold handleSpawning
  rw [hq]
  rw [if_neg (by simp [hwip]), if_neg (not_lt.mpr htimer), if_neg (not_le.mpr hcount)]
  dsimp only
  simp

/-- One `_handleSpawning` call keeps the spawn interval within
`[0.9, previous]` and the cap within `[previous, 24]`. -/
theorem handleSpawning_difficulty_step (inp : TickInput) (s : EnemyManager)
    (hlo : 9/10 ≤ s.spawnInterval) (hhi : s.maxActive ≤ 24) :
    (handleSpawning inp s).spawnInterval ≤ s.spawnInterval ∧
    9/10 ≤ (handleSpawning inp s).spawnInterval ∧
    s.maxActive ≤ (handleSpawning inp s).maxActive ∧
    (handleSpawning inp s).maxActive ≤ 24 := by
  unfold handleSpawning
  by_cases h1 : s.waveInProgress = false ∨ s.spawnQueue.length = 0
  · rw [if_pos h1]
    exact ⟨le_refl _, hlo, le_refl _, hhi⟩
  · rw [if_neg h1]
    by_cases h2 : s.spawnTimer < s.spawnInterval
    · rw [if_pos h2]
      exact ⟨le_refl _, hlo, le_refl _, hhi⟩
    · rw [if_neg h2]
      by_cases h3 : countActiveEnemies s ≥ s.maxActive
      · rw [if_pos h3]
        exact ⟨le_refl _, hlo, le_refl _, hhi⟩
      · rw [if_neg h3]
        rcases hqs : s.spawnQueue with _ | ⟨t, rest⟩
        · exact ⟨le_refl _, hlo, le_refl _, hhi⟩
        · dsimp only
          by_cases h4 : rest.length = 0
          · rw [if_pos h4]
            refine ⟨max_le hlo (by nlinarith), le_max_left _ _, ?_, ?_⟩
            · show s.maxActive ≤ min 24 (s.maxActive + 1)
              omega
            · show min 24 (s.maxActive + 1) ≤ 24
              omega
          · rw [if_neg h4]
            exact ⟨le_refl _, hlo, le_refl _, hhi⟩

/-- One manager frame keeps the difficulty fields within the same
bounds. -/
theorem update_difficulty_step (nrm : Vec3 → Vec3) (inp : TickInput) (s : EnemyManager)
    (hlo : 9/10 ≤ s.spawnInterval) (hhi : s.maxActive ≤ 24) :
    (EnemyManager.update nrm inp s).spawnInterval ≤ s.spawnInterval ∧
    9/10 ≤ (EnemyManager.update nrm inp s).spawnInterval ∧
    s.maxActive ≤ (EnemyManager.update nrm inp s).maxActive ∧
    (EnemyManager.update nrm inp s).maxActive ≤ 24 := by
  unfold EnemyManager.update
  dsimp only
  have hfields := maybeScheduleNewWave_fields inp
    { s with elapsed := s.elapsed + inp.delta, spawnTimer := s.spawnTimer + inp.delta }
  have hstep := handleSpawning_difficulty_step inp
    (maybeScheduleNewWave inp
      { s with elapsed := s.elapsed + inp.delta, spawnTimer := s.spawnTimer + inp.delta })
    (by rw [hfields.1]; exact hlo) (by rw [hfields.2.1]; exact hhi)
  rw [hfields.1] at hstep
  rw [hfields.2.1] at hstep
  exact hstep

/-- C6: completing a wave's queue escalates the difficulty exactly as
claimed (wave `+1`, interval `max(0.9, 0.92 * previous)`, cap
`min(24, previous + 1)`); consequently over every run of frames the
spawn interval is non-increasing and never below `0.9`, and `maxActive`
is non-decreasing and never above `24` — bounds the constructor state
(`3.2`, `8`) satisfies. -/
theorem wave_completion_escalation :
    (∀ (inp : TickInput) (s : EnemyManager) (t : EnemyType),
      s.waveInProgress = true → s.spawnQueue = [t] →
      s.spawnInterval ≤ s.spawnTimer → countActiveEnemies s < s.maxActive →
      (handleSpawning inp s).wave = s.wave + 1 ∧
      (handleSpawning inp s).spawnInterval = max (9/10) (s.spawnInterval * (92/100)) ∧
      (handleSpawning inp s).maxActive = min 24 (s.maxActive + 1) ∧
      (handleSpawning inp s).waveInProgress = false) ∧
    (∀ (nrm : Vec3 → Vec3) (inps : List TickInput) (s : EnemyManager),
      9/10 ≤ s.spawnInterval → s.maxActive ≤ 24 →
      (runManager nrm inps s).spawnInterval ≤ s.spawnInterval ∧
      9/10 ≤ (runManager nrm inps s).spawnInterval ∧
      s.maxActive ≤ (runManager nrm inps s).maxActive ∧
      (runManager nrm inps s).maxActive ≤ 24) ∧
    9/10 ≤ initialEnemyManager.spawnInterval ∧ initialEnemyManager.maxActive ≤ 24 := by
  refine ⟨?_, ?_, by norm_num [initialEnemyManager, DEFAULT_SPAWN_INTERVAL],
    by norm_num [initialEnemyManager, DEFAULT_MAX_ACTIVE]⟩
  · intro inp s t hwip hq htimer hcount
    rw [handleSpawning_escalates inp s t hwip hq htimer hcount]
    exact ⟨rfl, rfl, rfl, rfl⟩
  · intro nrm inps
    induction inps with
    | nil => intro s hlo hhi; exact ⟨le_refl _, hlo, le_refl _, hhi⟩
    | cons inp rest ih =>
      intro s hlo hhi
      obtain ⟨h1, h2, h3, h4⟩ := update_difficulty_step nrm inp s hlo hhi
      obtain ⟨g1, g2, g3, g4⟩ := ih (EnemyManager.update nrm inp s) h2 h4
      exact ⟨le_trans g1 h1, g2, le_trans h3 g3, g4⟩

/-- Witness for `wave_completion_escalation`: a one-entry queue with the
gate open escalates the initial difficulty to `(2.944, 9)`. -/
theorem wave_completion_escalation_witness :
    (let s : EnemyManager :=
      { initialEnemyManager with spawnQueue := [EnemyType.grunt], waveInProgress := true,
                                 spawnTimer := DEFAULT_SPAWN_INTERVAL }
    s.waveInProgress = true ∧ s.spawnQueue = [EnemyType.grunt] ∧
      s.spawnInterval ≤ s.spawnTimer ∧ countActiveEnemies s < s.maxActive ∧
      (handleSpawning demoInput s).spawnInterval = 368/125 ∧
      (handleSpawning demoInput s).maxActive = 9 ∧
      (handleSpawning demoInput s).wave = 2) := by
  intro s
  have h := (wave_completion_escalation).1 demoInput s EnemyType.grunt rfl rfl
    (le_refl _) (by show 0 < 8; omega)
  refine ⟨rfl, rfl, le_refl _, by show 0 < 8; omega, ?_, ?_, ?_⟩
  · rw [h.2.1]
    show max (9/10) (DEFAULT_SPAWN_INTERVAL * (92/100)) = 368/125
    rw [max_eq_right (by norm_num [DEFAULT_SPAWN_INTERVAL])]
    norm_num [DEFAULT_SPAWN_INTERVAL]
  · rw [h.2.2.1]
    have hm : s.maxActive = 8 := rfl
    rw [hm]
    decide
  · rw [h.1]
    have hw : s.wave = 1 := rfl
    rw [hw]

/-- A wave begins (the flag flips) only from a state with both the entry
list and the queue empty. -/
theorem maybeScheduleNewWave_begins_only_empty (inp : TickInput) (s : EnemyManager)
    (hflip : (maybeScheduleNewWave inp s).waveInProgress = true)
    (hwip : s.waveInProgress = false) :
    s.enemyEntries = [] ∧ s.spawnQueue = [] := by
  unfold maybeScheduleNewWave at hflip
  rw [if_neg (by simp [hwip])] at hflip
  by_cases h2 : s.enemyEntries.length = 0 ∧ s.spawnQueue.length = 0
  · exact ⟨List.length_eq_zero.mp h2.1, List.length_eq_zero.mp h2.2⟩
  · rw [if_neg h2] at hflip
    rw [hwip] at hflip
    exact absurd hflip (by simp)

/-- Spawning (`_handleSpawning`) never raises the in-progress flag. -/
theorem handleSpawning_waveInProgress (inp : TickInput) (s : EnemyManager)
    (h : (handleSpawning inp s).waveInProgress = true) : s.waveInProgress = true := by
  unfold handleSpawning at h
  by_cases h1 : s.waveInProgress = false ∨ s.spawnQueue.length = 0
  · rw [if_pos h1] at h
    exact h
  · rw [if_neg h1] at h
    by_cases h2 : s.spawnTimer < s.spawnInterval
    · rw [if_pos h2] at h
      exact h
    · rw [if_neg h2] at h
      by_cases h3 : countActiveEnemies s ≥ s.maxActive
      · rw [if_pos h3] at h
        exact h
      · rw [if_neg h3] at h
        rcases hqs : s.spawnQueue with _ | ⟨t, rest⟩
        · rw [hqs] at h
          exact h
        · rw [hqs] at h
          dsimp only at h
          by_cases h4 : rest.length = 0
          · rw [if_pos h4] at h
            simp at h
          · rw [if_neg h4] at h
            exact h

/-- Spawning (`_handleSpawning`) never lengthens the queue. -/
theorem handleSpawning_queue_length (inp : TickInput) (s : EnemyManager) :
    (handleSpawning inp s).spawnQueue.length ≤ s.spawnQueue.length := by
  unfold handleSpawning
  by_cases h1 : s.waveInProgress = false ∨ s.spawnQueue.length = 0
  · rw [if_pos h1]
  · rw [if_neg h1]
    by_cases h2 : s.spawnTimer < s.spawnInterval
    · rw [if_pos h2]
    · rw [if_neg h2]
      by_cases h3 : countActiveEnemies s ≥ s.maxActive
      · rw [if_pos h3]
      · rw [if_neg h3]
        rcases hqs : s.spawnQueue with _ | ⟨t, rest⟩
        · dsimp only
          rw [hqs]
        · dsimp only
          by_cases h4 : rest.length = 0
          · rw [if_pos h4]
            simp [hqs]
          · rw [if_neg h4]
            simp [hqs]

/-- Spawning (`_handleSpawning`) only ever appends to the entry list. -/
theorem handleSpawning_entries_mem (inp : TickInput) (s : EnemyManager)
    (entry : EnemyEntry) (h : entry ∈ s.enemyEntries) :
    entry ∈ (handleSpawning inp s).enemyEntries := by
  unfold handleSpawning
  by_cases h1 : s.waveInProgress = false ∨ s.spawnQueue.length = 0
  · rw [if_pos h1]
    exact h
  · rw [if_neg h1]
    by_cases h2 : s.spawnTimer < s.spawnInterval
    · rw [if_pos h2]
      exact h
    · rw [if_neg h2]
      by_cases h3 : countActiveEnemies s ≥ s.maxActive
      · rw [if_pos h3]
        exact h
      · rw [if_neg h3]
        rcases hqs : s.spawnQueue with _ | ⟨t, rest⟩
        · exact h
        · dsimp only
          by_cases h4 : rest.length = 0
          · rw [if_pos h4]
            exact List.mem_append_left _ h
          · rw [if_neg h4]
            exact List.mem_append_left _ h

/-- A dead entry still inside its grace interval survives the entry
loop, with its `deathTimer` advanced by the tick. -/
theorem updateEntries_dead_mem (nrm : Vec3 → Vec3) (delta : ℚ) (pp : Option Vec3) :
    ∀ (l : List EnemyEntry) (entry : EnemyEntry), entry ∈ l →
      entry.enemy.isAlive = false → entry.deathTimer + delta < DEATH_CLEANUP_DELAY →
      { entry with deathTimer := entry.deathTimer + delta } ∈ updateEntries nrm delta pp l := by
  intro l
  induction l with
  | nil =>
    intro entry h
    simp at h
  | cons e rest ih =>
    intro entry hmem hdead hlt
    rcases List.mem_cons.mp hmem with he | hm
    · subst he
      have hstep : updateEnemyEntry nrm delta pp entry =
          some { entry with deathTimer := entry.deathTimer + delta } := by
        unfold updateEnemyEntry
        rw [if_neg (by simp [hdead])]
        dsimp only
        rw [if_neg (not_le.mpr hlt)]
      simp only [updateEntries, hstep]
      exact List.mem_cons_self _ _
    · have hsub := ih entry hm hdead hlt
      rcases hstep : updateEnemyEntry nrm delta pp e with _ | e'
      · simp only [updateEntries, hstep]
        exact hsub
      · simp only [updateEntries, hstep]
        exact List.mem_cons_of_mem _ hsub

theorem countActiveAux (l : List EnemyEntry) :
    ∀ (n : Nat),
      l.foldl (fun count entry => count + (if entry.enemy.isAlive then 1 else 0)) n =
        n + (l.filter (fun entry => entry.enemy.isAlive)).length := by
  induction l with
  | nil => intro n; simp
  | cons e rest ih =>
    intro n
    rw [List.foldl_cons, ih]
    cases he : e.enemy.isAlive
    · simp [List.filter_cons, he]
    · simp [List.filter_cons, he]
      omega

/-- C9: a new wave is composed only when the entry list — which still
holds dead enemies waiting out the 1.8 s cleanup delay — and the spawn
queue are both empty; a dead entry inside its grace interval survives
the tick with its timer advanced; a tick on a non-empty entry list never
raises the in-progress flag nor grows the queue; and the spawn gate's
count covers alive enemies only. -/
theorem wave_waits_for_cleanup (nrm : Vec3 → Vec3) (inp : TickInput) (s : EnemyManager) :
    ((maybeScheduleNewWave inp s).waveInProgress = true → s.waveInProgress = false →
      s.enemyEntries = [] ∧ s.spawnQueue = []) ∧
    (∀ entry ∈ s.enemyEntries, entry.enemy.isAlive = false →
      entry.deathTimer + inp.delta < DEATH_CLEANUP_DELAY →
      { entry with deathTimer := entry.deathTimer + inp.delta } ∈
        (EnemyManager.update nrm inp s).enemyEntries) ∧
    (s.enemyEntries ≠ [] →
      ((EnemyManager.update nrm inp s).waveInProgress = true → s.waveInProgress = true) ∧
      (EnemyManager.update nrm inp s).spawnQueue.length ≤ s.spawnQueue.length) ∧
    countActiveEnemies s =
      (s.enemyEntries.filter (fun entry => entry.enemy.isAlive)).length := by
  refine ⟨fun hf hw => maybeScheduleNewWave_begins_only_empty inp s hf hw, ?_, ?_, ?_⟩
  · intro entry hmem hdead hlt
    unfold EnemyManager.update
    dsimp only
    apply updateEntries_dead_mem nrm inp.delta inp.playerPosition _ entry _ hdead hlt
    apply handleSpawning_entries_mem
    rw [(maybeScheduleNewWave_fields inp
      { s with elapsed := s.elapsed + inp.delta,
               spawnTimer := s.spawnTimer + inp.delta }).2.2]
    exact hmem
  · intro hne
    unfold EnemyManager.update
    dsimp only
    rw [maybeScheduleNewWave_skip inp
      { s with elapsed := s.elapsed + inp.delta, spawnTimer := s.spawnTimer + inp.delta }
      (Or.inl hne)]
    constructor
    · intro h
      exact handleSpawning_waveInProgress inp
        { s with elapsed := s.elapsed + inp.delta,
                 spawnTimer := s.spawnTimer + inp.delta } h
    · exact handleSpawning_queue_length inp
        { s with elapsed := s.elapsed + inp.delta,
                 spawnTimer := s.spawnTimer + inp.delta }
  · unfold countActiveEnemies
    rw [countActiveAux]
    exact Nat.zero_add _

/-- Witness for `wave_waits_for_cleanup`: the dead entry survives a 0.1 s
tick with its timer advanced, and counts for nothing at the spawn gate. -/
theorem wave_waits_for_cleanup_witness :
    deadDemoEntry ∈ deadDemoState.enemyEntries ∧
    deadDemoEntry.enemy.isAlive = false ∧
    deadDemoEntry.deathTimer + demoInput.delta < DEATH_CLEANUP_DELAY ∧
    { deadDemoEntry with deathTimer := deadDemoEntry.deathTimer + demoInput.delta } ∈
      (EnemyManager.update id demoInput deadDemoState).enemyEntries ∧
    countActiveEnemies deadDemoState = 0 := by
  have hmem : deadDemoEntry ∈ deadDemoState.enemyEntries := List.mem_singleton_self _
  have hdead : deadDemoEntry.enemy.isAlive = false := rfl
  have hlt : deadDemoEntry.deathTimer + demoInput.delta < DEATH_CLEANUP_DELAY := by
    show (0 : ℚ) + 1/10 < 18/10
    norm_num
  have h := wave_waits_for_cleanup id demoInput deadDemoState
  refine ⟨hmem, hdead, hlt, h.2.1 deadDemoEntry hmem hdead hlt, ?_⟩
  rw [h.2.2.2]
  rfl
